import Mathlib

/-!
Verification development for the camera synchronization and transfer engine
of `main.py` (Open Oly ImageShare).  The Python source is shallowly embedded:
pure helpers become Lean functions, the stateful loops become explicit state
passing, external effects (HTTP requests, the filesystem, the cooperative
cancellation flag) are supplied as explicit inputs describing the outcome of
each effectful call.  Machine integers are modelled as `Nat` (the Python
values involved are non-negative and unbounded `int`s).
-/

/-! ## Olympus DCIM attribute bits (`OLYMPUS_ATTRIB_*` in `main.py`) -/

def OLYMPUS_ATTRIB_NONE : Nat := 0
def OLYMPUS_ATTRIB_HIDDEN : Nat := 2
def OLYMPUS_ATTRIB_SYSTEM : Nat := 4
def OLYMPUS_ATTRIB_VOLUME : Nat := 8
def OLYMPUS_ATTRIB_DIRECTORY : Nat := 16

/-- Extensions shown in the thumbnails screen (`SHOW_FILES` in `main.py`). -/
def SHOW_FILES : List String := ["JPG", "MOV"]

/-! ## Timestamp decoding (`olympus_timestamp` in `main.py`) -/

/-- Python `'%02d' % n` for a non-negative `n`: zero-pad to two digits. -/
def pad2 (n : Nat) : String :=
  if n < 10 then "0" ++ toString n else toString n

/-- Embedding of `olympus_timestamp(date, time)`:
`f'{1980+(date>>9)}-{(date>>5)&15:02d}-{date&31:02d}T{time>>11:02d}:{(time>>5)&63:02d}:{2*(time&31):02d}'`. -/
def olympus_timestamp (date time : Nat) : String :=
  toString (1980 + (date >>> 9)) ++ "-" ++ pad2 ((date >>> 5) &&& 15) ++ "-" ++
    pad2 (date &&& 31) ++ "T" ++ pad2 (time >>> 11) ++ ":" ++
    pad2 ((time >>> 5) &&& 63) ++ ":" ++ pad2 (2 * (time &&& 31))

/-- Zero-pad to four digits, for the spec side `YYYY` field. -/
def pad4 (n : Nat) : String :=
  if n < 10 then "000" ++ toString n
  else if n < 100 then "00" ++ toString n
  else if n < 1000 then "0" ++ toString n
  else toString n

/-- Timestamp decoding as worded by the spec (section 4.2): year = 1980 + (date >> 9),
month = (date >> 5) & 0xF, day = date & 0x1F, hour = time >> 11,
minute = (time >> 5) & 0x3F, second = 2 × (time & 0x1F), formatted
`YYYY-MM-DDTHH:MM:SS` with zero-padding. -/
def spec_olympus_timestamp (date time : Nat) : String :=
  pad4 (1980 + (date >>> 9)) ++ "-" ++ pad2 ((date >>> 5) &&& 15) ++ "-" ++
    pad2 (date &&& 31) ++ "T" ++ pad2 (time >>> 11) ++ ":" ++
    pad2 ((time >>> 5) &&& 63) ++ ":" ++ pad2 (2 * (time &&& 31))

/-! ## Directory walker (`ThumbnailsScreen.get_dcim_imglist` in `main.py`) -/

/-- One well-formed (six comma-separated fields) data line of a
`get_imglist.cgi` response, after the integer fields have been parsed:
`containing_dir, filename, size, attribute_bits, packed_date, packed_time`.
Header (`VER_`) lines, lines with a field count other than six and lines whose
integer fields fail to parse are skipped by the source with a warning before
this point. -/
structure ImgLine where
  dir : String
  item : String
  size : Nat
  attrib : Nat
  date : Nat
  time : Nat
deriving DecidableEq

/-- One element of `self.images_list`: `[dcim_path, item_size, olympus_timestamp(...)]`
(indices `ITEM_KEY_FILENAME`, `ITEM_KEY_SIZE`, `ITEM_KEY_TIMESTAMP`). -/
structure ImgEntry where
  filename : String
  size : Nat
  timestamp : String
deriving DecidableEq

/-- Embedding of `dcim_path = '/'.join((path, item))`. -/
def dcimPath (l : ImgLine) : String := l.dir ++ "/" ++ l.item

/-- Split a character list on a separator character, Python `str.split` style:
the result always has at least one (possibly empty) group. -/
def splitOnChar (c : Char) : List Char → List (List Char)
  | [] => [[]]
  | a :: as =>
    let r := splitOnChar c as
    if a = c then [] :: r
    else
      match r with
      | [] => [[a]]
      | g :: gs => (a :: g) :: gs

/-- Embedding of `item.split('.')[-1].upper()`. -/
def fileExtension (item : String) : String :=
  String.mk (((splitOnChar '.' item.data).getLastD []).map Char.toUpper)

/-- The walker, embedded with explicit fuel bounding the recursion depth (the
source recursion is unbounded).  `server d` is the parsed listing returned by
`get_imglist.cgi?DIR=d`.  The first component is the `images_list` fragment
appended while processing the listing; the second component records, in order,
every directory passed to a recursive `get_dcim_imglist` call, so that the
recursion behaviour is observable. -/
def get_dcim_imglist (server : String → List ImgLine) :
    Nat → String → List ImgEntry × List String
  | 0, _ => ([], [])
  | Nat.succ fuel, directory =>
    (server directory).foldl
      (fun acc l =>
        if l.attrib &&& OLYMPUS_ATTRIB_HIDDEN ≠ 0 then acc
        else if l.attrib &&& OLYMPUS_ATTRIB_SYSTEM ≠ 0 then acc
        else if l.attrib &&& OLYMPUS_ATTRIB_VOLUME ≠ 0 then acc
        else
          let acc1 :=
            if l.attrib &&& OLYMPUS_ATTRIB_DIRECTORY ≠ 0 then
              let r := get_dcim_imglist server fuel (dcimPath l)
              (acc.1 ++ r.1, acc.2 ++ dcimPath l :: r.2)
            else acc
          if l.attrib == OLYMPUS_ATTRIB_NONE && SHOW_FILES.contains (fileExtension l.item)
          then (acc1.1 ++ [⟨dcimPath l, l.size, olympus_timestamp l.date l.time⟩], acc1.2)
          else acc1)
      ([], [])

/-- The per-line body of the walker's loop, as a named function (definitionally
equal to the lambda inside `get_dcim_imglist`). -/
def imglistStep (server : String → List ImgLine) (fuel : Nat)
    (acc : List ImgEntry × List String) (l : ImgLine) : List ImgEntry × List String :=
  if l.attrib &&& OLYMPUS_ATTRIB_HIDDEN ≠ 0 then acc
  else if l.attrib &&& OLYMPUS_ATTRIB_SYSTEM ≠ 0 then acc
  else if l.attrib &&& OLYMPUS_ATTRIB_VOLUME ≠ 0 then acc
  else
    let acc1 :=
      if l.attrib &&& OLYMPUS_ATTRIB_DIRECTORY ≠ 0 then
        let r := get_dcim_imglist server fuel (dcimPath l)
        (acc.1 ++ r.1, acc.2 ++ dcimPath l :: r.2)
      else acc
    if l.attrib == OLYMPUS_ATTRIB_NONE && SHOW_FILES.contains (fileExtension l.item)
    then (acc1.1 ++ [⟨dcimPath l, l.size, olympus_timestamp l.date l.time⟩], acc1.2)
    else acc1

theorem get_dcim_imglist_succ (server : String → List ImgLine) (fuel : Nat) (d : String) :
    get_dcim_imglist server (fuel + 1) d =
      (server d).foldl (imglistStep server fuel) ([], []) := rfl

theorem imglistStep_mem_snd (server : String → List ImgLine) (fuel : Nat)
    (acc : List ImgEntry × List String) (l : ImgLine) (x : String) (hx : x ∈ acc.2) :
    x ∈ (imglistStep server fuel acc l).2 := by
  unfold imglistStep
  split
  · exact hx
  split
  · exact hx
  split
  · exact hx
  split <;> split <;> simp [hx]

theorem foldl_imglistStep_mem_snd (server : String → List ImgLine) (fuel : Nat)
    (lines : List ImgLine) :
    ∀ acc x, x ∈ acc.2 → x ∈ (lines.foldl (imglistStep server fuel) acc).2 := by
  induction lines with
  | nil => intro acc x hx; exact hx
  | cons l ls ih =>
    intro acc x hx
    exact ih _ _ (imglistStep_mem_snd server fuel acc l x hx)

theorem imglistStep_child_mem (server : String → List ImgLine) (fuel : Nat)
    (acc : List ImgEntry × List String) (l : ImgLine)
    (hH : l.attrib &&& OLYMPUS_ATTRIB_HIDDEN = 0)
    (hS : l.attrib &&& OLYMPUS_ATTRIB_SYSTEM = 0)
    (hV : l.attrib &&& OLYMPUS_ATTRIB_VOLUME = 0)
    (hD : l.attrib &&& OLYMPUS_ATTRIB_DIRECTORY ≠ 0) :
    dcimPath l ∈ (imglistStep server fuel acc l).2 := by
  unfold imglistStep
  simp only [hH, hS, hV, hD, ne_eq, not_true_eq_false, if_false, if_true,
    not_false_eq_true, ite_true, ite_false]
  split <;> simp

theorem foldl_imglistStep_child (server : String → List ImgLine) (fuel : Nat)
    (lines : List ImgLine) (l : ImgLine) (hl : l ∈ lines)
    (hH : l.attrib &&& OLYMPUS_ATTRIB_HIDDEN = 0)
    (hS : l.attrib &&& OLYMPUS_ATTRIB_SYSTEM = 0)
    (hV : l.attrib &&& OLYMPUS_ATTRIB_VOLUME = 0)
    (hD : l.attrib &&& OLYMPUS_ATTRIB_DIRECTORY ≠ 0) :
    ∀ acc, dcimPath l ∈ (lines.foldl (imglistStep server fuel) acc).2 := by
  induction lines with
  | nil => cases hl
  | cons a as ih =>
    intro acc
    rcases List.mem_cons.mp hl with h | h
    · subst h
      exact foldl_imglistStep_mem_snd server fuel as _ _
        (imglistStep_child_mem server fuel acc l hH hS hV hD)
    · exact ih h _

/-! ## Claim C4: timestamp decoding -/

/-- C4 counterexample: the claim's literal fixture is wrong.  On
`date=22278, time=35850` the bit-field formulas of the source produce
month `(22278 >> 5) & 15 = 8`, minute `(35850 >> 5) & 63 = 32` and second
`2 * (35850 & 31) = 20`, so the output is `2023-08-06T17:32:20`, not the
claimed `2023-06-06T17:30:36`. -/
theorem c4_counterexample :
    olympus_timestamp 22278 35850 ≠ "2023-06-06T17:30:36" := by decide

/-- C4 (amended): timestamp decoding is a pure function given by the fixed
bit-field formulas (it agrees with the formatter written from the spec's
formulas, for all inputs), and on the fixture `date=22278, time=35850` it
produces `"2023-08-06T17:32:20"`. -/
theorem c4_timestamp_decoding :
    olympus_timestamp 22278 35850 = "2023-08-06T17:32:20" ∧
      ∀ date time, olympus_timestamp date time = spec_olympus_timestamp date time := by
  constructor
  · decide
  · intro date time
    have h : ¬ (1980 + (date >>> 9) < 10) := by omega
    have h2 : ¬ (1980 + (date >>> 9) < 100) := by omega
    have h3 : ¬ (1980 + (date >>> 9) < 1000) := by omega
    simp [olympus_timestamp, spec_olympus_timestamp, pad4, h, h2, h3]

/-! ## Claim C1: recursion guard of the directory walker -/

/-- A fixed camera tree whose root listing contains a subdirectory line with
attribute bits `DIRECTORY|SYSTEM = 20` and a subdirectory line with plain
`DIRECTORY = 16`. -/
def c1server : String → List ImgLine := fun d =>
  if d = "/DCIM" then
    [⟨"/DCIM", "SYSDIR", 0, 20, 22278, 35850⟩,
     ⟨"/DCIM", "100OLYMP", 0, 16, 22278, 35850⟩]
  else if d = "/DCIM/SYSDIR" then
    [⟨"/DCIM/SYSDIR", "PA010001.JPG", 123, 0, 22278, 35850⟩]
  else if d = "/DCIM/100OLYMP" then
    [⟨"/DCIM/100OLYMP", "P8060001.JPG", 8924081, 0, 22278, 35850⟩]
  else []

/-- C1 counterexample: a listing line with the DIRECTORY bit and the SYSTEM
bit both set (`attrib = 20`) is NOT recursed into — the source tests
HIDDEN/SYSTEM/VOLUME first and `continue`s past the whole line, so those bits
do suppress recursion, contrary to the claim.  The plain DIRECTORY line
(`attrib = 16`) in the same listing is recursed into, and the file inside the
skipped subtree never reaches the image list. -/
theorem c1_counterexample :
    "/DCIM/SYSDIR" ∉ (get_dcim_imglist c1server 5 "/DCIM").2 ∧
      "/DCIM/100OLYMP" ∈ (get_dcim_imglist c1server 5 "/DCIM").2 ∧
      ∀ e ∈ (get_dcim_imglist c1server 5 "/DCIM").1,
        e.filename ≠ "/DCIM/SYSDIR/PA010001.JPG" := by decide

/-- C1 (amended): the walker recurses into a listing line's path when the
line's attribute bits include the DIRECTORY bit (16) and none of the HIDDEN
(2), SYSTEM (4) or VOLUME (8) bits is set; when any of those three bits is
set the line is skipped entirely and no recursion occurs. -/
theorem c1_recursion_guard (server : String → List ImgLine) (fuel : Nat)
    (d : String) (l : ImgLine) (hmem : l ∈ server d)
    (hH : l.attrib &&& OLYMPUS_ATTRIB_HIDDEN = 0)
    (hS : l.attrib &&& OLYMPUS_ATTRIB_SYSTEM = 0)
    (hV : l.attrib &&& OLYMPUS_ATTRIB_VOLUME = 0)
    (hD : l.attrib &&& OLYMPUS_ATTRIB_DIRECTORY ≠ 0) :
    dcimPath l ∈ (get_dcim_imglist server (fuel + 1) d).2 := by
  rw [get_dcim_imglist_succ]
  exact foldl_imglistStep_child server fuel (server d) l hmem hH hS hV hD _

/-- Witness for `c1_recursion_guard` at a concrete server and line. -/
theorem c1_recursion_guard_witness :
    "/DCIM/100OLYMP" ∈ (get_dcim_imglist c1server (4 + 1) "/DCIM").2 :=
  c1_recursion_guard c1server 4 "/DCIM" ⟨"/DCIM", "100OLYMP", 0, 16, 22278, 35850⟩
    (by decide) (by decide) (by decide) (by decide) (by decide)

/-! ## Filesystem and HTTP outcome modelling -/

/-- A file on the local filesystem: its byte content and the modification
time last assigned through `os.utime` (`none` when the mtime was never set by
the program, i.e. it is the write time). -/
structure FileRec where
  content : List Nat
  mtime : Option String
deriving DecidableEq

/-! ## Thumbnail fetch (`ThumbnailsScreen.get_file` in `main.py`) -/

/-- Outcomes of the external calls made by one `get_file` invocation.
`req = none` models `requests.get` raising; `req = some (status, body)` a
response.  `openOk = false` models `open(dst_filename, 'wb')` raising (no file
created); `writeFailAt = some k` models `.write` raising after `k` bytes
reached the disk (the `open` already created the file). -/
structure GfArgs where
  dstFile : Option FileRec
  req : Option (Nat × List Nat)
  openOk : Bool
  writeFailAt : Option Nat
  timestamp : Option String
deriving DecidableEq

/-- Result of `get_file`: whether a non-`None` `dst_filename` was returned,
and the file present at the destination path afterwards. -/
structure GfResult where
  returned : Bool
  file : Option FileRec
deriving DecidableEq

/-- Embedding of `ThumbnailsScreen.get_file`: if the destination exists it is
returned untouched; otherwise the URL is fetched, the body written with
`open(dst).write(resp.content)`, and on success `os.utime` sets the mtime from
`timestamp`.  Exceptions from the fetch or the write are caught and turn the
return value into `None`; the write failure branch performs no cleanup. -/
def get_file (a : GfArgs) : GfResult :=
  match a.dstFile with
  | some f => { returned := true, file := some f }
  | none =>
    match a.req with
    | none => { returned := false, file := none }
    | some (status, body) =>
      if status ≠ 200 then { returned := false, file := none }
      else if a.openOk = false then { returned := false, file := none }
      else
        match a.writeFailAt with
        | some k => { returned := false, file := some ⟨body.take k, none⟩ }
        | none => { returned := true, file := some ⟨body, a.timestamp⟩ }

/-! ## Claim C6: thumbnail cache miss behaviour -/

/-- A `get_file` run where the fetch succeeded but the `.write` call raised
after one of the two body bytes was written. -/
def c6args : GfArgs :=
  { dstFile := none, req := some (200, [10, 20]), openOk := true,
    writeFailAt := some 1, timestamp := some "2023-08-06T17:32:20" }

/-- C6 counterexample: a write failure makes the cache operation return a
miss, but the partially written file is left at the cache path — the source
catches the exception, logs it and nulls the return value without unlinking
the file, so a file can exist at the cache filename although the full body was
never written to it. -/
theorem c6_counterexample :
    (get_file c6args).returned = false ∧ (get_file c6args).file = some ⟨[10], none⟩ := by
  decide

/-- C6 (amended): any fetch failure (transport exception or non-200 status)
or an `open` failure returns a miss and creates no file at the cache path;
a failure inside the body write also returns a miss, but the partially
written file remains at the cache path (it is not removed). -/
theorem c6_cache_miss (a : GfArgs) (hdst : a.dstFile = none) :
    (a.req = none → (get_file a).returned = false ∧ (get_file a).file = none) ∧
      (∀ st body, a.req = some (st, body) → st ≠ 200 →
        (get_file a).returned = false ∧ (get_file a).file = none) ∧
      (∀ st body, a.req = some (st, body) → a.openOk = false →
        (get_file a).returned = false ∧ (get_file a).file = none) ∧
      (∀ st body k, a.req = some (st, body) → st = 200 → a.openOk = true →
        a.writeFailAt = some k →
        (get_file a).returned = false ∧ (get_file a).file = some ⟨body.take k, none⟩) := by
  refine ⟨?_, ?_, ?_, ?_⟩
  · intro hreq
    simp [get_file, hdst, hreq]
  · intro st body hreq hst
    simp [get_file, hdst, hreq, hst]
  · intro st body hreq hopen
    by_cases hst : st = 200 <;> simp [get_file, hdst, hreq, hopen, hst]
  · intro st body k hreq hst hopen hw
    simp [get_file, hdst, hreq, hst, hopen, hw]

/-- Witness for `c6_cache_miss`: the non-200 branch at a concrete input. -/
theorem c6_cache_miss_witness :
    (get_file { dstFile := none, req := some (404, [1]), openOk := true,
                writeFailAt := none, timestamp := none }).returned = false ∧
      (get_file { dstFile := none, req := some (404, [1]), openOk := true,
                  writeFailAt := none, timestamp := none }).file = none :=
  (c6_cache_miss _ rfl).2.1 404 [1] rfl (by decide)

/-! ## File download (`ThumbnailsScreen.download_file` in `main.py`) -/

/-- Outcome of the streaming `requests.get` of one download: `exn` models the
call itself raising; `resp status contentLength chunks bodyExn` models a
response with the given status code, optional `content-length` header, the
chunk sequence yielded by `iter_content`, and `bodyExn = true` when the
iterator raises (e.g. a per-chunk read timeout) after the listed chunks. -/
inductive ReqOutcome where
  | exn
  | resp (status : Nat) (contentLength : Option Nat) (chunks : List (List Nat)) (bodyExn : Bool)
deriving DecidableEq

/-- The external inputs of one `download_file` call.  `flag0` is the value of
`self.progress_cancel_requested` on entry; `cancelAt = some c` means a user
cancellation request is observable from the `c`-th in-loop flag check on
(checks are counted from 1, one per `iter_content` iteration); `unlinkOk`
tells whether an `os.unlink` of the partial file would succeed. -/
structure DlArgs where
  dstFile : Option FileRec
  req : ReqOutcome
  flag0 : Bool
  cancelAt : Option Nat
  unlinkOk : Bool
  timestamp : Option String
  filesize : Option Nat
deriving DecidableEq

/-- Value of `self.progress_cancel_requested` as read at the `k`-th flag
check of the chunk loop. -/
def cancelSeen (flag0 : Bool) (cancelAt : Option Nat) (k : Nat) : Bool :=
  flag0 ||
    match cancelAt with
    | some c => decide (c ≤ k)
    | none => false

/-- Running state of the chunk loop: `downloaded` bytes so far, the bytes
written to the file, the cumulative percentages reported so far, and the
number of flag checks performed. -/
structure ChunkSt where
  downloaded : Nat
  content : List Nat
  percents : List Nat
  k : Nat
deriving DecidableEq

/-- How the chunk loop ended: normally (all chunks consumed or the
cancellation flag observed), with a `ZeroDivisionError` from the percent
computation, or with an exception raised by the body iterator. -/
inductive ChunkExit where
  | finished (s : ChunkSt)
  | zdiv (s : ChunkSt)
  | ebody (s : ChunkSt)
deriving DecidableEq

/-- Embedding of the `for chunk in r.iter_content(...)` loop of
`download_file`: a truthy (non-empty) chunk is written, the counter advanced
and `percent = int(downloaded / total * 100)` computed — which raises
`ZeroDivisionError` when `total = 0`; every iteration then polls the
cancellation flag and breaks when it is set. -/
def chunkLoop (total : Nat) (flag0 : Bool) (cancelAt : Option Nat) (bodyExn : Bool) :
    List (List Nat) → ChunkSt → ChunkExit
  | [], s => if bodyExn then .ebody s else .finished s
  | c :: cs, s =>
    if c.isEmpty then
      if cancelSeen flag0 cancelAt (s.k + 1) then .finished {s with k := s.k + 1}
      else chunkLoop total flag0 cancelAt bodyExn cs {s with k := s.k + 1}
    else
      let s1 : ChunkSt := {s with content := s.content ++ c, downloaded := s.downloaded + c.length}
      if total = 0 then .zdiv s1
      else
        let s2 : ChunkSt := {s1 with percents := s1.percents ++ [s1.downloaded * 100 / total]}
        if cancelSeen flag0 cancelAt (s2.k + 1) then .finished {s2 with k := s2.k + 1}
        else chunkLoop total flag0 cancelAt bodyExn cs {s2 with k := s2.k + 1}

/-- Result of one `download_file` call.  `returned` is whether `dst_filename`
was non-`None` at `return`; `file` the file present at the destination path
afterwards; `requested` whether an HTTP request was issued; `cancelled` the
value read by the `if self.progress_cancel_requested:` cleanup check;
`flagEnd` the flag value on exit; `divByZero` whether the percent computation
raised `ZeroDivisionError`; `sizeWarn` whether the advisory size-mismatch
popup was emitted. -/
structure DlResult where
  returned : Bool
  file : Option FileRec
  requested : Bool
  percents : List Nat
  divByZero : Bool
  sizeWarn : Bool
  existsWarn : Bool
  cancelled : Bool
  flagEnd : Bool
deriving DecidableEq

/-- The `if downloaded_file_size != filesize:` advisory check at the end of
`download_file` (reached only when `dst_filename` is not `None`). -/
def sizeWarnCheck (file : Option FileRec) (filesize : Option Nat) : Bool :=
  match file, filesize with
  | some f, some n => decide (f.content.length ≠ n)
  | _, _ => false

/-- Embedding of `ThumbnailsScreen.download_file`.  If the destination file
already exists the transfer is skipped with a warning; otherwise the body is
streamed in chunks through `chunkLoop`.  Any exception (transport, HTTP
status ≥ 400 via `raise_for_status`, body iterator, `ZeroDivisionError`) is
caught, reported, and sets the cancellation flag; after the loop a set flag
triggers `os.unlink` of the partial file and nulls the return value; a
surviving destination gets its mtime set from `timestamp`; finally the
advisory size comparison runs whenever a path is returned. -/
def download_file (a : DlArgs) : DlResult :=
  match a.dstFile with
  | some f =>
    { returned := true, file := some f, requested := false, percents := [],
      divByZero := false, sizeWarn := sizeWarnCheck (some f) a.filesize,
      existsWarn := true, cancelled := false, flagEnd := a.flag0 }
  | none =>
    match a.req with
    | .exn =>
      { returned := false, file := none, requested := true, percents := [],
        divByZero := false, sizeWarn := false, existsWarn := false,
        cancelled := true, flagEnd := true }
    | .resp status cl chunks bodyExn =>
      if 400 ≤ status then
        { returned := false, file := none, requested := true, percents := [],
          divByZero := false, sizeWarn := false, existsWarn := false,
          cancelled := true, flagEnd := true }
      else
        let total := cl.getD 0
        match chunkLoop total a.flag0 a.cancelAt bodyExn chunks ⟨0, [], [], 0⟩ with
        | .finished s =>
          if cancelSeen a.flag0 a.cancelAt s.k then
            { returned := false,
              file := if a.unlinkOk then none else some ⟨s.content, none⟩,
              requested := true, percents := s.percents, divByZero := false,
              sizeWarn := false, existsWarn := false, cancelled := true, flagEnd := true }
          else
            { returned := true, file := some ⟨s.content, a.timestamp⟩,
              requested := true, percents := s.percents, divByZero := false,
              sizeWarn := sizeWarnCheck (some ⟨s.content, a.timestamp⟩) a.filesize,
              existsWarn := false, cancelled := false, flagEnd := false }
        | .zdiv s =>
          { returned := false,
            file := if a.unlinkOk then none else some ⟨s.content, none⟩,
            requested := true, percents := s.percents, divByZero := true,
            sizeWarn := false, existsWarn := false, cancelled := true, flagEnd := true }
        | .ebody s =>
          { returned := false,
            file := if a.unlinkOk then none else some ⟨s.content, none⟩,
            requested := true, percents := s.percents, divByZero := false,
            sizeWarn := false, existsWarn := false, cancelled := true, flagEnd := true }

/-! ## Download batch loop (`ThumbnailsScreen.download_loop` in `main.py`) -/

/-- The per-item call arguments as `download_loop` builds them: the item's
listing `size` and `timestamp` are passed along, and the live flag value is
threaded in. -/
def itemArgs (a : DlArgs) (img : ImgEntry) (flag : Bool) : DlArgs :=
  {a with flag0 := flag, timestamp := some img.timestamp, filesize := some img.size}

/-- State of the download loop: the selected-path set (`self.images_selected`
keys), the flag, and the running `count`. -/
structure DlLoopSt where
  selected : List String
  flag : Bool
  count : Nat
deriving DecidableEq

/-- Body of one selected item in `download_loop`: run `download_file`; a
non-`None` result bumps the counter and removes the path from the selected
set. -/
def downloadItem (argsFor : String → DlArgs) (img : ImgEntry) (s : DlLoopSt) : DlLoopSt :=
  let r := download_file (itemArgs (argsFor img.filename) img s.flag)
  { selected := if r.returned then s.selected.filter (fun q => q ≠ img.filename) else s.selected,
    flag := r.flagEnd,
    count := if r.returned then s.count + 1 else s.count }

/-- Embedding of the `for img in self.images_list:` loop of `download_loop`:
selected items are downloaded in index order, and after every list element
the cancellation flag is polled and breaks the loop. -/
def download_loop (argsFor : String → DlArgs) : List ImgEntry → DlLoopSt → DlLoopSt
  | [], s => s
  | img :: rest, s =>
    let s1 := if img.filename ∈ s.selected then downloadItem argsFor img s else s
    if s1.flag then s1 else download_loop argsFor rest s1

/-! ## Claim C3: per-chunk percent reporting and the content-length guard -/

/-- Cumulative sums of a list, starting from `acc`. -/
def cumsums (acc : Nat) : List Nat → List Nat
  | [] => []
  | l :: ls => (acc + l) :: cumsums (acc + l) ls

/-- The percent sequence `floor(bytes_so_far * 100 / total)` after each
truthy (non-empty) chunk. -/
def percentsSpec (chunks : List (List Nat)) (total : Nat) : List Nat :=
  (cumsums 0 ((chunks.filter (fun c => !c.isEmpty)).map List.length)).map
    (fun t => t * 100 / total)

theorem cancelSeen_none (k : Nat) : cancelSeen false none k = false := rfl

theorem chunkLoop_run_pos (total : Nat) (ht : total ≠ 0) :
    ∀ (cs : List (List Nat)) (s : ChunkSt),
      chunkLoop total false none false cs s =
        .finished ⟨s.downloaded + (cs.map List.length).sum, s.content ++ cs.flatten,
          s.percents ++
            (cumsums s.downloaded ((cs.filter (fun c => !c.isEmpty)).map List.length)).map
              (fun t => t * 100 / total),
          s.k + cs.length⟩ := by
  intro cs
  induction cs with
  | nil => intro s; simp [chunkLoop, cumsums]
  | cons c cs ih =>
    intro s
    by_cases hc : c.isEmpty
    · have hce : c = [] := List.isEmpty_iff.mp hc
      subst hce
      simp only [chunkLoop, List.isEmpty_nil, if_true, cancelSeen_none, Bool.false_eq_true,
        ite_false]
      rw [ih]
      simp [List.length_cons]
      omega
    · simp only [chunkLoop, hc, Bool.false_eq_true, if_false, ht, ite_false, cancelSeen_none]
      rw [ih]
      simp only [ChunkExit.finished.injEq, ChunkSt.mk.injEq]
      refine ⟨by simp; omega, by simp, ?_, by simp [List.length_cons]; omega⟩
      simp [hc, cumsums, List.append_assoc]

theorem chunkLoop_run_zero :
    ∀ (cs : List (List Nat)) (s : ChunkSt) (bodyExn : Bool), (∃ c ∈ cs, c ≠ []) →
      ∃ s1, chunkLoop 0 false none bodyExn cs s = .zdiv s1 ∧ s1.percents = s.percents := by
  intro cs
  induction cs with
  | nil => intro s bodyExn h; simp at h
  | cons c cs ih =>
    intro s bodyExn h
    by_cases hc : c.isEmpty
    · have hce : c = [] := List.isEmpty_iff.mp hc
      subst hce
      rcases h with ⟨c', hc', hne⟩
      rcases List.mem_cons.mp hc' with h | h
      · exact absurd h hne
      · simpa [chunkLoop, cancelSeen_none] using ih {s with k := s.k + 1} bodyExn ⟨c', h, hne⟩
    · refine ⟨{s with content := s.content ++ c, downloaded := s.downloaded + c.length}, ?_, rfl⟩
      simp [chunkLoop, hc]

/-- The inputs of a download whose response carries no `content-length`
header and whose body consists of one 1-byte chunk. -/
def c3args : DlArgs :=
  { dstFile := none, req := .resp 200 none [[7]] false, flag0 := false,
    cancelAt := none, unlinkOk := true, timestamp := none, filesize := none }

/-- C3 counterexample: when the `content-length` header is absent,
`total = int(r.headers.get('content-length', 0)) = 0` and the first
non-empty chunk makes `percent = int(downloaded / total * 100)` raise
`ZeroDivisionError` — the division's error branch IS reachable, there is no
guard skipping percent reporting. -/
theorem c3_counterexample :
    (download_file c3args).divByZero = true ∧
      (download_file c3args).returned = false ∧
      (download_file c3args).file = none := by decide

/-- C3 (amended): for a 200 response that is allowed to run to completion
(no cancellation request), when `content-length` is present and positive the
cumulative percent `floor(bytes_so_far * 100 / content_length)` is reported
after each non-empty chunk and the download completes; but when
`content-length` is absent or zero and any non-empty chunk arrives, the
percent computation divides by zero: the resulting `ZeroDivisionError` is
caught by the per-item exception handler, which marks the download failed
(cancellation flag set), deletes the partial file and returns `None`, with no
percent ever reported. -/
theorem c3_percent_reporting (a : DlArgs) (cl : Option Nat) (chunks : List (List Nat))
    (hdst : a.dstFile = none) (hreq : a.req = .resp 200 cl chunks false)
    (hfl : a.flag0 = false) (hca : a.cancelAt = none) (hul : a.unlinkOk = true) :
    (0 < cl.getD 0 →
      (download_file a).percents = percentsSpec chunks (cl.getD 0) ∧
        (download_file a).returned = true) ∧
      (cl.getD 0 = 0 → (∃ c ∈ chunks, c ≠ []) →
        (download_file a).divByZero = true ∧ (download_file a).returned = false ∧
          (download_file a).file = none ∧ (download_file a).percents = []) := by
  constructor
  · intro htotal
    have ht : cl.getD 0 ≠ 0 := by omega
    simp only [download_file, hdst, hreq, hfl, hca]
    rw [if_neg (by omega)]
    rw [chunkLoop_run_pos (cl.getD 0) ht chunks ⟨0, [], [], 0⟩]
    simp [cancelSeen_none, percentsSpec]
  · intro htotal hne
    simp only [download_file, hdst, hreq, hfl, hca, htotal]
    rw [if_neg (by omega)]
    rcases chunkLoop_run_zero chunks ⟨0, [], [], 0⟩ false hne with ⟨s1, hrun, hp⟩
    rw [hrun]
    simp [hul, hp]

/-- A download with `content-length: 10` and two non-empty chunks. -/
def c3argsPos : DlArgs :=
  { dstFile := none, req := .resp 200 (some 10) [[1, 2], [3]] false, flag0 := false,
    cancelAt := none, unlinkOk := true, timestamp := none, filesize := none }

/-- Witness for `c3_percent_reporting` at a concrete positive-length and a
concrete zero-length response. -/
theorem c3_percent_reporting_witness :
    ((download_file c3argsPos).percents = percentsSpec [[1, 2], [3]] 10 ∧
        (download_file c3argsPos).returned = true) ∧
      (download_file c3args).divByZero = true :=
  ⟨(c3_percent_reporting c3argsPos (some 10) [[1, 2], [3]] rfl rfl rfl rfl rfl).1 (by decide),
    ((c3_percent_reporting c3args none [[7]] rfl rfl rfl rfl rfl).2 rfl
      ⟨[7], by decide, by decide⟩).1⟩

/-! ## Claims C7, C9, C10: per-item download behaviour -/

theorem download_file_cancel_clean (a : DlArgs) (h1 : a.dstFile = none)
    (h2 : a.unlinkOk = true) (h3 : (download_file a).cancelled = true) :
    (download_file a).file = none ∧ (download_file a).returned = false ∧
      (download_file a).flagEnd = true := by
  rcases a with ⟨dst, req, flag0, cancelAt, unlinkOk, ts, fs⟩
  simp only at h1 h2
  subst h1
  subst h2
  rcases req with _ | ⟨status, cl, chunks, bodyExn⟩
  · simp [download_file]
  · simp only [download_file] at h3 ⊢
    by_cases hs : 400 ≤ status
    · rw [if_pos hs] at h3 ⊢
      simp
    · rw [if_neg hs] at h3 ⊢
      rcases hrun : chunkLoop (cl.getD 0) flag0 cancelAt bodyExn chunks ⟨0, [], [], 0⟩
        with s | s | s
      · rw [hrun] at h3
        dsimp only at h3 ⊢
        by_cases hcs : cancelSeen flag0 cancelAt s.k = true
        · simp [hcs]
        · simp [hcs] at h3
      · simp
      · simp

theorem downloadItem_keeps (argsFor : String → DlArgs) (img : ImgEntry) (s : DlLoopSt)
    (p : String) (hp : p ∈ s.selected)
    (h : img.filename = p →
      (download_file (itemArgs (argsFor p) img s.flag)).returned = false) :
    p ∈ (downloadItem argsFor img s).selected := by
  by_cases heq : img.filename = p
  · subst heq
    have hret := h rfl
    simp [downloadItem, hret, hp]
  · by_cases hr : (download_file (itemArgs (argsFor img.filename) img s.flag)).returned = true
    · simp [downloadItem, hr, List.mem_filter, hp, Ne.symm heq]
    · simp only [Bool.not_eq_true] at hr
      simp [downloadItem, hr, hp]

theorem download_loop_keeps (argsFor : String → DlArgs) (p : String) :
    ∀ (images : List ImgEntry) (s : DlLoopSt), s.flag = false → p ∈ s.selected →
      (∀ img ∈ images, img.filename = p →
        (download_file (itemArgs (argsFor p) img false)).returned = false) →
      p ∈ (download_loop argsFor images s).selected := by
  intro images
  induction images with
  | nil => intro s _ hp _; exact hp
  | cons img rest ih =>
    intro s hf hp hall
    simp only [download_loop]
    by_cases hmem : img.filename ∈ s.selected
    · rw [if_pos hmem]
      have hp1 : p ∈ (downloadItem argsFor img s).selected := by
        refine downloadItem_keeps argsFor img s p hp (fun he => ?_)
        rw [hf]
        exact hall img (List.mem_cons_self _ _) he
      by_cases hfl : (downloadItem argsFor img s).flag = true
      · rw [if_pos hfl]
        exact hp1
      · simp only [Bool.not_eq_true] at hfl
        rw [hfl]
        simp only [Bool.false_eq_true, if_false]
        exact ih _ hfl hp1 (fun i hi he => hall i (List.mem_cons_of_mem _ hi) he)
    · rw [if_neg hmem, hf]
      simp only [Bool.false_eq_true, if_false]
      exact ih s hf hp (fun i hi he => hall i (List.mem_cons_of_mem _ hi) he)

/-- C7: a download item on which the cooperative cancellation flag is
observed mid-item (the post-loop cleanup check reads it as set) has its
partial file deleted — no file remains at the target path (granted the
`os.unlink` call itself succeeds) — and is treated as not downloaded, so its
path stays in the selected set of the surrounding `download_loop`. -/
theorem c7_cancelled_mid_item (argsFor : String → DlArgs) (p : String)
    (images : List ImgEntry) (s : DlLoopSt)
    (hdst : (argsFor p).dstFile = none) (hul : (argsFor p).unlinkOk = true)
    (hs : s.flag = false) (hp : p ∈ s.selected)
    (hc : ∀ img ∈ images, img.filename = p →
      (download_file (itemArgs (argsFor p) img false)).cancelled = true) :
    (∀ img ∈ images, img.filename = p →
      (download_file (itemArgs (argsFor p) img false)).file = none ∧
        (download_file (itemArgs (argsFor p) img false)).returned = false) ∧
      p ∈ (download_loop argsFor images s).selected := by
  have hclean : ∀ img ∈ images, img.filename = p →
      (download_file (itemArgs (argsFor p) img false)).file = none ∧
        (download_file (itemArgs (argsFor p) img false)).returned = false := by
    intro img hi he
    have h := download_file_cancel_clean (itemArgs (argsFor p) img false)
      (by simp [itemArgs, hdst]) (by simp [itemArgs, hul]) (hc img hi he)
    exact ⟨h.1, h.2.1⟩
  exact ⟨hclean,
    download_loop_keeps argsFor p images s hs hp
      (fun img hi he => (hclean img hi he).2)⟩

/-- A download whose user hits Cancel at the first chunk boundary. -/
def c7args : DlArgs :=
  { dstFile := none, req := .resp 200 (some 4) [[1, 2], [3, 4]] false, flag0 := false,
    cancelAt := some 1, unlinkOk := true, timestamp := none, filesize := none }

def c7path : String := "/DCIM/100OLYMP/P8060001.JPG"

def c7entry : ImgEntry := ⟨c7path, 4, "2023-08-06T17:32:20"⟩

/-- Witness for `c7_cancelled_mid_item` at a concrete cancelled transfer. -/
theorem c7_cancelled_mid_item_witness :
    (∀ img ∈ [c7entry], img.filename = c7path →
      (download_file (itemArgs ((fun _ => c7args) c7path) img false)).file = none ∧
        (download_file (itemArgs ((fun _ => c7args) c7path) img false)).returned = false) ∧
      c7path ∈ (download_loop (fun _ => c7args) [c7entry] ⟨[c7path], false, 1⟩).selected :=
  c7_cancelled_mid_item (fun _ => c7args) c7path [c7entry] ⟨[c7path], false, 1⟩
    rfl rfl rfl (by decide) (by decide)

theorem download_file_sizeWarn (a : DlArgs) (h : (download_file a).returned = true) :
    (download_file a).sizeWarn = sizeWarnCheck (download_file a).file a.filesize := by
  rcases a with ⟨dst, req, flag0, cancelAt, unlinkOk, ts, fs⟩
  rcases dst with _ | f
  · rcases req with _ | ⟨status, cl, chunks, bodyExn⟩
    · simp [download_file] at h
    · simp only [download_file] at h ⊢
      by_cases hs : 400 ≤ status
      · rw [if_pos hs] at h
        simp at h
      · rw [if_neg hs] at h ⊢
        rcases hrun : chunkLoop (cl.getD 0) flag0 cancelAt bodyExn chunks ⟨0, [], [], 0⟩
          with s | s | s
        · rw [hrun] at h
          dsimp only at h ⊢
          by_cases hcs : cancelSeen flag0 cancelAt s.k = true
          · simp [hcs] at h
          · simp [hcs]
        · rw [hrun] at h
          simp at h
        · rw [hrun] at h
          simp at h
  · rfl

/-- C9: a download item that completes (a path is returned) but whose on-disk
size differs from the listing `size` raises the advisory size-mismatch
warning, yet is still counted as downloaded: the return value stays a path
and `download_loop` removes the item's path from the selected set. -/
theorem c9_size_mismatch_advisory (argsFor : String → DlArgs) (img : ImgEntry)
    (s : DlLoopSt) (f : FileRec)
    (hret : (download_file (itemArgs (argsFor img.filename) img s.flag)).returned = true)
    (hf : (download_file (itemArgs (argsFor img.filename) img s.flag)).file = some f)
    (hmm : f.content.length ≠ img.size) :
    (download_file (itemArgs (argsFor img.filename) img s.flag)).sizeWarn = true ∧
      img.filename ∉ (downloadItem argsFor img s).selected ∧
      (downloadItem argsFor img s).count = s.count + 1 := by
  refine ⟨?_, ?_, ?_⟩
  · rw [download_file_sizeWarn _ hret, hf]
    simp [sizeWarnCheck, itemArgs, hmm]
  · simp [downloadItem, hret]
  · simp [downloadItem, hret]

/-- A completed download whose three body bytes disagree with the listing
size of 5. -/
def c9args : DlArgs :=
  { dstFile := none, req := .resp 200 (some 3) [[1, 2, 3]] false, flag0 := false,
    cancelAt := none, unlinkOk := true, timestamp := none, filesize := none }

def c9entry : ImgEntry := ⟨"/DCIM/100OLYMP/P9140459.MOV", 5, "2023-09-14T06:20:24"⟩

/-- Witness for `c9_size_mismatch_advisory` at a concrete mismatching item. -/
theorem c9_size_mismatch_advisory_witness :
    (download_file (itemArgs ((fun _ => c9args) c9entry.filename) c9entry
        (DlLoopSt.mk [c9entry.filename] false 1).flag)).sizeWarn = true ∧
      c9entry.filename ∉
        (downloadItem (fun _ => c9args) c9entry ⟨[c9entry.filename], false, 1⟩).selected ∧
      (downloadItem (fun _ => c9args) c9entry ⟨[c9entry.filename], false, 1⟩).count = 1 + 1 :=
  c9_size_mismatch_advisory (fun _ => c9args) c9entry ⟨[c9entry.filename], false, 1⟩
    ⟨[1, 2, 3], some c9entry.timestamp⟩ (by decide) (by decide) (by decide)

/-- C10: a download item whose destination file already exists is skipped:
no HTTP request is issued, the file (content and mtime) is left untouched,
the destination path is returned, and `download_loop` counts the item as
downloaded, removing its path from the selected set. -/
theorem c10_skip_existing (argsFor : String → DlArgs) (img : ImgEntry) (s : DlLoopSt)
    (f : FileRec) (hex : (argsFor img.filename).dstFile = some f) :
    (download_file (itemArgs (argsFor img.filename) img s.flag)).requested = false ∧
      (download_file (itemArgs (argsFor img.filename) img s.flag)).file = some f ∧
      (download_file (itemArgs (argsFor img.filename) img s.flag)).returned = true ∧
      img.filename ∉ (downloadItem argsFor img s).selected ∧
      (downloadItem argsFor img s).count = s.count + 1 := by
  have hd : (itemArgs (argsFor img.filename) img s.flag).dstFile = some f := by
    simp [itemArgs, hex]
  have hret : (download_file (itemArgs (argsFor img.filename) img s.flag)).returned = true := by
    unfold download_file
    rw [hd]
  refine ⟨?_, ?_, hret, ?_, ?_⟩
  · unfold download_file
    rw [hd]
  · unfold download_file
    rw [hd]
  · simp [downloadItem, hret]
  · simp [downloadItem, hret]

/-- A pre-existing destination file. -/
def c10file : FileRec := ⟨[9, 9, 9], some "2023-08-06T17:32:20"⟩

def c10args : DlArgs :=
  { dstFile := some c10file, req := .exn, flag0 := false, cancelAt := none,
    unlinkOk := true, timestamp := none, filesize := none }

def c10entry : ImgEntry := ⟨"/DCIM/100OLYMP/P8060001.JPG", 3, "2023-08-06T17:32:20"⟩

/-- Witness for `c10_skip_existing` at a concrete already-downloaded item. -/
theorem c10_skip_existing_witness :
    (download_file (itemArgs ((fun _ => c10args) c10entry.filename) c10entry
        (DlLoopSt.mk [c10entry.filename] false 1).flag)).requested = false ∧
      (download_file (itemArgs ((fun _ => c10args) c10entry.filename) c10entry
        (DlLoopSt.mk [c10entry.filename] false 1).flag)).file = some c10file ∧
      (download_file (itemArgs ((fun _ => c10args) c10entry.filename) c10entry
        (DlLoopSt.mk [c10entry.filename] false 1).flag)).returned = true ∧
      c10entry.filename ∉
        (downloadItem (fun _ => c10args) c10entry ⟨[c10entry.filename], false, 1⟩).selected ∧
      (downloadItem (fun _ => c10args) c10entry ⟨[c10entry.filename], false, 1⟩).count = 1 + 1 :=
  c10_skip_existing (fun _ => c10args) c10entry ⟨[c10entry.filename], false, 1⟩ c10file rfl

/-! ## Erase batch (`ThumbnailsScreen.delete_loop` in `main.py`) -/

/-- Outcome of the `exec_erase.cgi` GET for one path: the call raises, or
returns a response with the given status code. -/
inductive EraseOutcome where
  | exn
  | resp (status : Nat)
deriving DecidableEq

/-- Running state of the delete loop.  `respLast` models the `resp` local
variable of `delete_loop`: the value of the last `requests.get` that returned
(`none` while the variable is still unbound). -/
structure DelSt where
  respLast : Option Nat
  delete_count : Nat
  deleted : List ImgEntry
  selected : List String
  flag : Bool
  idx : Nat
  page_new : Nat
deriving DecidableEq

/-- Final state of `delete_loop`.  `crashed = true` models the loop dying on
an `UnboundLocalError` (reading `resp.status_code` while `resp` is unbound):
the function never reaches the entries removal, the page assignment or the
popup dismissal, and the in-memory state keeps the mutations made so far. -/
structure DelOut where
  crashed : Bool
  entries : List ImgEntry
  selected : List String
  page : Nat
  flag : Bool
  deleted : List ImgEntry
deriving DecidableEq

/-- Embedding of the `for img in self.images_list:` loop of `delete_loop`.
For a selected item: a raised `requests.get` sets `erase_failed = True` and
then evaluates `resp.status_code` — an `UnboundLocalError` (modelled as
`.error`) when no earlier request ever returned; a returned response with a
non-200 status sets `erase_failed = True`; a 200 response erases the item
(counter, `deleted_list`, removal from `images_selected`).  A failed item
sets the cancellation flag.  Every iteration with `image_index` at most
`last_image_in_page` then recomputes
`current_page_new = int(max(0, image_index - delete_count) / (rows * cols))`,
and the loop breaks once the flag is set. -/
def delete_go (eraseFor : String → EraseOutcome) (rows cols lastInPage : Nat) :
    List ImgEntry → DelSt → Except DelSt DelSt
  | [], st => .ok st
  | img :: rest, st =>
    let body : Except DelSt DelSt :=
      if img.filename ∈ st.selected then
        match eraseFor img.filename with
        | .exn =>
          match st.respLast with
          | none => .error st
          | some _ => .ok {st with flag := true}
        | .resp status =>
          if status ≠ 200 then .ok {st with respLast := some status, flag := true}
          else .ok {st with respLast := some status,
                            delete_count := st.delete_count + 1,
                            deleted := st.deleted ++ [img],
                            selected := st.selected.filter (fun q => q ≠ img.filename)}
      else .ok st
    match body with
    | .error st1 => .error st1
    | .ok st2 =>
      let st3 := if st2.idx ≤ lastInPage
        then {st2 with page_new := (st2.idx - st2.delete_count) / (rows * cols)}
        else st2
      if st3.flag then .ok st3
      else delete_go eraseFor rows cols lastInPage rest {st3 with idx := st3.idx + 1}

/-- Embedding of `ThumbnailsScreen.delete_loop`: run the loop from a fresh
state (`delete_count = 0`, `deleted_list = []`, flag cleared, `resp` unbound,
`current_page_new = self.current_page`,
`last_image_in_page = ((current_page + 1) * rows * cols) - 1`), then remove
every erased entry from `images_list` (`list.remove`, first occurrence) and
install the recomputed page.  A crash leaves `images_list` and the page
untouched. -/
def delete_loop (eraseFor : String → EraseOutcome) (images : List ImgEntry)
    (selected0 : List String) (page rows cols : Nat) : DelOut :=
  let lastInPage := (page + 1) * rows * cols - 1
  match delete_go eraseFor rows cols lastInPage images
      ⟨none, 0, [], selected0, false, 0, page⟩ with
  | .error st =>
    { crashed := true, entries := images, selected := st.selected, page := page,
      flag := st.flag, deleted := st.deleted }
  | .ok st =>
    { crashed := false, entries := st.deleted.foldl (fun l d => l.erase d) images,
      selected := st.selected, page := st.page_new, flag := st.flag,
      deleted := st.deleted }

/-! ## Claim C2: erase failure handling -/

def c2entry : ImgEntry := ⟨"/DCIM/100OLYMP/PA010001.JPG", 1000, "2023-10-01T10:00:00"⟩

/-- C2: evaluation of `delete_loop` at the failing input.  When the erase
HTTP request of the first selected item raises a transport exception, the
handler sets `erase_failed = True` but the following unguarded
`if resp.status_code != 200:` reads the still-unbound local `resp` and raises
`UnboundLocalError`: the worker dies with the cancellation flag never set,
the item not marked failed-and-skipped, and the batch state (entries, page)
never reconciled — instead of the claimed mark-failed-and-set-flag path. -/
theorem c2_first_item_exception_crash :
    delete_loop (fun _ => .exn) [c2entry] [c2entry.filename] 0 6 4 =
      { crashed := true, entries := [c2entry], selected := [c2entry.filename],
        page := 0, flag := false, deleted := [] } := by decide

/-! ## Claim C5: page recomputation after an erase batch -/

/-- The `i`-th entry of a ten-item fixture list. -/
def c5entry (i : Nat) : ImgEntry :=
  ⟨"/DCIM/100OLYMP/P80600" ++ pad2 i ++ ".JPG", 100 + i, "2023-08-06T17:32:20"⟩

def c5images : List ImgEntry := (List.range 10).map c5entry

/-- Selection holding the items at indices 1 and 3. -/
def c5selected : List String := [(c5entry 1).filename, (c5entry 3).filename]

/-- The erase batch of claim C5 run with a grid of `1 × pp` thumbnails per
page, viewing the page containing index 5. -/
def c5run (pp : Nat) : DelOut :=
  delete_loop (fun _ => .resp 200) c5images c5selected (5 / pp) 1 pp

/-- C5 counterexample: with `rows*cols = 4` (so the current page, the one
holding index 5, is page 1 = floor(5/4)), erasing the items at indices 1 and
3 of the ten-item list leaves the engine on page 1, not on the claimed page
floor(3/(rows*cols)) = 0: the recomputation is driven by the *last* index of
the current page (here 7), not by the viewed index 5. -/
theorem c5_counterexample :
    (c5run 4).crashed = false ∧ (c5run 4).deleted.length = 2 ∧
      (c5run 4).page = 1 ∧ (c5run 4).page ≠ 3 / (2 * 2) := by decide

/-- C5 (amended): after the batch the engine does remove both erased entries
from the list and clear them from the selection, but the recomputed page is
`floor((L - d) / (rows*cols))` where `L = min(last_index_of_current_page,
last_index_of_list)` and `d` is the number of deletions at indices ≤ L — for
this fixture `floor((min((floor(5/pp)+1)*pp - 1, 9) - 2) / pp)`, verified
here for every page size `pp` from 1 to 24.  This equals the claimed
`floor(3/pp)` only when index 5 is the last index of its page (for instance
`pp ∈ {1, 2, 3, 6}`), and differs for example at `pp = 4`. -/
theorem c5_page_recompute :
    ((List.range 24).all fun k =>
      (c5run (k + 1)).crashed == false &&
        (c5run (k + 1)).selected.isEmpty &&
        (c5run (k + 1)).entries == ((c5images.erase (c5entry 1)).erase (c5entry 3)) &&
        (c5run (k + 1)).page ==
          (min ((5 / (k + 1) + 1) * (k + 1) - 1) 9 - 2) / (k + 1)) = true := by decide

/-! ## Claim C8: the selection is always a subset of the entry paths -/

theorem downloadItem_selected_subset (argsFor : String → DlArgs) (img : ImgEntry)
    (s : DlLoopSt) : (downloadItem argsFor img s).selected ⊆ s.selected := by
  by_cases hr : (download_file (itemArgs (argsFor img.filename) img s.flag)).returned = true
  · simp only [downloadItem, hr, if_true]
    exact fun q hq => List.mem_of_mem_filter hq
  · simp only [Bool.not_eq_true] at hr
    simp only [downloadItem, hr, Bool.false_eq_true, if_false]
    exact fun q hq => hq

theorem download_loop_selected_subset (argsFor : String → DlArgs) :
    ∀ (images : List ImgEntry) (s : DlLoopSt),
      (download_loop argsFor images s).selected ⊆ s.selected := by
  intro images
  induction images with
  | nil => intro s; exact fun q hq => hq
  | cons img rest ih =>
    intro s
    simp only [download_loop]
    by_cases hmem : img.filename ∈ s.selected
    · rw [if_pos hmem]
      by_cases hfl : (downloadItem argsFor img s).flag = true
      · rw [if_pos hfl]
        exact downloadItem_selected_subset argsFor img s
      · rw [if_neg hfl]
        exact fun q hq => downloadItem_selected_subset argsFor img s (ih _ hq)
    · rw [if_neg hmem]
      by_cases hfl : s.flag = true
      · rw [if_pos hfl]
        exact fun q hq => hq
      · rw [if_neg hfl]
        exact ih s

/-- Collapse either exit of `delete_go` to its final loop state. -/
def delOutOfExcept : Except DelSt DelSt → DelSt
  | .error st => st
  | .ok st => st

theorem delete_go_inv (eraseFor : String → EraseOutcome) (rows cols lastInPage : Nat)
    (sel0 : List String) :
    ∀ (images : List ImgEntry) (st : DelSt),
      st.selected ⊆ sel0 → (∀ d ∈ st.deleted, d.filename ∉ st.selected) →
      (delOutOfExcept (delete_go eraseFor rows cols lastInPage images st)).selected ⊆ sel0 ∧
        ∀ d ∈ (delOutOfExcept (delete_go eraseFor rows cols lastInPage images st)).deleted,
          d.filename ∉
            (delOutOfExcept (delete_go eraseFor rows cols lastInPage images st)).selected := by
  intro images
  induction images with
  | nil =>
    intro st h1 h2
    exact ⟨h1, h2⟩
  | cons img rest ih =>
    intro st h1 h2
    simp only [delete_go]
    by_cases hmem : img.filename ∈ st.selected
    · rw [if_pos hmem]
      rcases heo : eraseFor img.filename with _ | status
      · rcases hresp : st.respLast with _ | sc
        · exact ⟨h1, h2⟩
        · dsimp only
          by_cases hidx : st.idx ≤ lastInPage
          · rw [if_pos hidx]
            dsimp only
            rw [if_pos rfl]
            exact ⟨h1, h2⟩
          · rw [if_neg hidx]
            dsimp only
            rw [if_pos rfl]
            exact ⟨h1, h2⟩
      · dsimp only
        by_cases hst : status ≠ 200
        · rw [if_pos hst]
          dsimp only
          by_cases hidx : st.idx ≤ lastInPage
          · rw [if_pos hidx]
            dsimp only
            rw [if_pos rfl]
            exact ⟨h1, h2⟩
          · rw [if_neg hidx]
            dsimp only
            rw [if_pos rfl]
            exact ⟨h1, h2⟩
        · rw [if_neg hst]
          dsimp only
          have h1' : (st.selected.filter (fun q => q ≠ img.filename)) ⊆ sel0 :=
            fun q hq => h1 (List.mem_of_mem_filter hq)
          have h2' : ∀ d ∈ st.deleted ++ [img],
              d.filename ∉ st.selected.filter (fun q => q ≠ img.filename) := by
            intro d hd
            rcases List.mem_append.mp hd with hd | hd
            · intro hc
              exact h2 d hd (List.mem_of_mem_filter hc)
            · simp only [List.mem_singleton] at hd
              subst hd
              simp [List.mem_filter]
          by_cases hidx : st.idx ≤ lastInPage
          · rw [if_pos hidx]
            dsimp only
            by_cases hfl : st.flag = true
            · rw [if_pos hfl]
              exact ⟨h1', h2'⟩
            · rw [if_neg hfl]
              exact ih _ h1' h2'
          · rw [if_neg hidx]
            dsimp only
            by_cases hfl : st.flag = true
            · rw [if_pos hfl]
              exact ⟨h1', h2'⟩
            · rw [if_neg hfl]
              exact ih _ h1' h2'
    · rw [if_neg hmem]
      dsimp only
      by_cases hidx : st.idx ≤ lastInPage
      · rw [if_pos hidx]
        dsimp only
        by_cases hfl : st.flag = true
        · rw [if_pos hfl]
          exact ⟨h1, h2⟩
        · rw [if_neg hfl]
          exact ih _ h1 h2
      · rw [if_neg hidx]
        by_cases hfl : st.flag = true
        · rw [if_pos hfl]
          exact ⟨h1, h2⟩
        · rw [if_neg hfl]
          exact ih _ h1 h2

theorem mem_foldl_erase (e : ImgEntry) :
    ∀ (ds : List ImgEntry) (l : List ImgEntry), e ∈ l → (∀ d ∈ ds, e ≠ d) →
      e ∈ ds.foldl (fun acc d => acc.erase d) l := by
  intro ds
  induction ds with
  | nil => intro l h _; exact h
  | cons d ds ih =>
    intro l h hne
    simp only [List.foldl_cons]
    exact ih _ ((List.mem_erase_of_ne (hne d (List.mem_cons_self _ _))).mpr h)
      (fun d' hd' => hne d' (List.mem_cons_of_mem _ hd'))

/-- One foreground operation on the gallery session: a thumbnail tap
(`ImageButton.on_press` toggles), the page-wide select/unselect buttons
(`ImageButton.select` / `.unselect` on the widget at entry index `i`), a full
index rebuild (`read_images_list`: both containers cleared, entries replaced
by the new walk result), a download batch (`download_loop`) and an erase
batch (`delete_loop`). -/
inductive GalleryOp where
  | toggle (i : Nat)
  | selectIdx (i : Nat)
  | unselectIdx (i : Nat)
  | rebuild (imgs : List ImgEntry)
  | download (argsFor : String → DlArgs)
  | erase (eraseFor : String → EraseOutcome)

/-- The session state owned by the thumbnails screen: `images_list`,
`images_selected` (dictionary keys), `current_page` and the grid shape. -/
structure GallerySt where
  entries : List ImgEntry
  selected : List String
  page : Nat
  rows : Nat
  cols : Nat

/-- Apply one operation, as the source does. -/
def applyOp (s : GallerySt) : GalleryOp → GallerySt
  | .toggle i =>
    match s.entries[i]? with
    | none => s
    | some e =>
      if e.filename ∈ s.selected
      then {s with selected := s.selected.filter (fun q => q ≠ e.filename)}
      else {s with selected := e.filename :: s.selected}
  | .selectIdx i =>
    match s.entries[i]? with
    | none => s
    | some e =>
      if e.filename ∈ s.selected then s else {s with selected := e.filename :: s.selected}
  | .unselectIdx i =>
    match s.entries[i]? with
    | none => s
    | some e => {s with selected := s.selected.filter (fun q => q ≠ e.filename)}
  | .rebuild imgs => {s with entries := imgs, selected := []}
  | .download argsFor =>
    {s with selected := (download_loop argsFor s.entries ⟨s.selected, false, 1⟩).selected}
  | .erase eraseFor =>
    let r := delete_loop eraseFor s.entries s.selected s.page s.rows s.cols
    {s with entries := r.entries, selected := r.selected, page := r.page}

def applyOps (s : GallerySt) : List GalleryOp → GallerySt
  | [] => s
  | op :: ops => applyOps (applyOp s op) ops

/-- The invariant of claim C8: every selected path is the path of some
entry. -/
def selectedInv (s : GallerySt) : Prop :=
  ∀ p ∈ s.selected, ∃ e ∈ s.entries, e.filename = p

theorem applyOp_selectedInv (s : GallerySt) (op : GalleryOp) (h : selectedInv s) :
    selectedInv (applyOp s op) := by
  cases op with
  | toggle i =>
    cases hei : s.entries[i]? with
    | none => simpa [applyOp, hei] using h
    | some e =>
      by_cases hmem : e.filename ∈ s.selected
      · intro p hp
        simp only [applyOp, hei, if_pos hmem] at hp ⊢
        exact h p (List.mem_of_mem_filter hp)
      · intro p hp
        simp only [applyOp, hei, if_neg hmem] at hp ⊢
        rcases List.mem_cons.mp hp with hp | hp
        · subst hp
          exact ⟨e, List.getElem?_mem hei, rfl⟩
        · exact h p hp
  | selectIdx i =>
    cases hei : s.entries[i]? with
    | none => simpa [applyOp, hei] using h
    | some e =>
      by_cases hmem : e.filename ∈ s.selected
      · simpa [applyOp, hei, hmem] using h
      · intro p hp
        simp only [applyOp, hei, if_neg hmem] at hp ⊢
        rcases List.mem_cons.mp hp with hp | hp
        · subst hp
          exact ⟨e, List.getElem?_mem hei, rfl⟩
        · exact h p hp
  | unselectIdx i =>
    cases hei : s.entries[i]? with
    | none => simpa [applyOp, hei] using h
    | some e =>
      intro p hp
      simp only [applyOp, hei] at hp ⊢
      exact h p (List.mem_of_mem_filter hp)
  | rebuild imgs =>
    intro p hp
    simp [applyOp] at hp
  | download argsFor =>
    intro p hp
    simp only [applyOp] at hp ⊢
    exact h p (download_loop_selected_subset argsFor s.entries ⟨s.selected, false, 1⟩ hp)
  | erase eraseFor =>
    intro p hp
    simp only [applyOp] at hp ⊢
    have hinv := delete_go_inv eraseFor s.rows s.cols ((s.page + 1) * s.rows * s.cols - 1)
      s.selected s.entries ⟨none, 0, [], s.selected, false, 0, s.page⟩
      (fun q hq => hq) (by simp)
    rcases hgo : delete_go eraseFor s.rows s.cols ((s.page + 1) * s.rows * s.cols - 1)
        s.entries ⟨none, 0, [], s.selected, false, 0, s.page⟩ with st | st
    · rw [hgo] at hinv
      simp only [delOutOfExcept] at hinv
      simp only [delete_loop] at hp ⊢
      rw [hgo] at hp ⊢
      dsimp only at hp ⊢
      exact h p (hinv.1 hp)
    · rw [hgo] at hinv
      simp only [delOutOfExcept] at hinv
      simp only [delete_loop] at hp ⊢
      rw [hgo] at hp ⊢
      dsimp only at hp ⊢
      rcases h p (hinv.1 hp) with ⟨e, he, hef⟩
      refine ⟨e, mem_foldl_erase e st.deleted s.entries he ?_, hef⟩
      intro d hd hedeq
      apply hinv.2 d hd
      rw [← hedeq, hef]
      exact hp

/-- C8: after any sequence of toggle / select / unselect / rebuild /
download-batch / erase-batch operations applied to a state in which every
selected path belongs to an entry, every selected path still belongs to an
entry — erased entries are dropped from the selection in the same step. -/
theorem c8_selected_subset_invariant (s : GallerySt) (ops : List GalleryOp)
    (h : selectedInv s) : selectedInv (applyOps s ops) := by
  induction ops generalizing s with
  | nil => exact h
  | cons op ops ih => exact ih _ (applyOp_selectedInv s op h)

/-- A concrete session exercising every operation kind. -/
def c8state : GallerySt := ⟨c5images, [], 0, 2, 3⟩

def c8ops : List GalleryOp :=
  [.toggle 0, .selectIdx 1, .selectIdx 3, .toggle 5, .unselectIdx 5,
   .download (fun _ => c9args), .toggle 2, .erase (fun _ => .resp 200),
   .rebuild c5images, .toggle 4]

/-- Witness for `c8_selected_subset_invariant` on a concrete operation
sequence. -/
theorem c8_selected_subset_invariant_witness : selectedInv (applyOps c8state c8ops) :=
  c8_selected_subset_invariant c8state c8ops (by intro p hp; simp [c8state] at hp)
